import Mathlib

/-
Verification of the Vanessa MITM proxy core (connection dispatch, SSL server
pool, CONNECT registry, WebSocket close propagation, upstream agent selection,
and system-proxy resolution), shallowly embedded from the JavaScript source.
-/

namespace Vanessa

/-! ## Generic JavaScript-semantics helpers -/

/-- Association lookup on a list of key/value pairs; models property access on
a plain JS object used as a map (first binding wins, mirroring the fact that
the maps in the source never hold duplicate keys). -/
def assocFind {α : Type} (l : List (String × α)) (k : String) : Option α :=
  match l with
  | [] => none
  | (k', v) :: rest => if k' = k then some v else assocFind rest k

/-- JS truthiness filter for string-valued expressions: `undefined` and the
empty string are falsy; a non-empty string passes through. Models `x ? ... `
guards on string values. -/
def jsGetTruthy (x : Option String) : Option String :=
  match x with
  | some s => if s = "" then none else some s
  | none => none

/-- JS `a || b` on string-valued expressions: returns `b` when `a` is
`undefined` or the empty string, else `a`. -/
def jsOr (a b : Option String) : Option String :=
  match a with
  | some s => if s = "" then b else some s
  | none => b

/-- JS string coercion of a possibly-undefined value when concatenated:
`undefined` prints as `"undefined"`. -/
def undefStr (x : Option String) : String :=
  match x with
  | some s => s
  | none => "undefined"

/-! ## Wildcard key computation

`_onHttpServerConnectData` computes
`wildcardHost = hostname.replace(/[^\.]+\./, '*.')`: the leftmost run of
non-dot characters that is immediately followed by a dot is replaced by `*.`
(the regex is greedy, so the run extends exactly to the first dot after its
start). If the hostname contains no such match (in particular when it contains
no dot at all), the string is returned unchanged. -/

/-- The suffix of `l` after its first `'.'`, or `none` when `l` has no dot. -/
def afterFirstDot (l : List Char) : Option (List Char) :=
  match l with
  | [] => none
  | c :: rest => if c = '.' then some rest else afterFirstDot rest

/-- One pass of `String.replace` with the regex `[^\.]+\.` and replacement
`*.`: leading dots cannot start a match and are kept; at the first non-dot
character, if a dot occurs later the greedy run up to that first dot plus the
dot itself is replaced by `*.`, otherwise nothing matches anywhere. -/
def wildcardChars (l : List Char) : List Char :=
  match l with
  | [] => []
  | c :: rest =>
    if c = '.' then c :: wildcardChars rest
    else
      match afterFirstDot rest with
      | some suffix => '*' :: '.' :: suffix
      | none => c :: rest

/-- `hostname.replace(/[^\.]+\./, '*.')` from `_onHttpServerConnectData`. -/
def wildcardOf (hostname : String) : String :=
  String.mk (wildcardChars hostname.data)

/-! ## SSL server pool -/

/-- An entry of `this.sslServers`. The source creates exactly two shapes:
`{ server, wsServer, port }` for a listener it owns (listener ids and the
numeric ephemeral port), and `{ port: this.sslServers[wildcardHost] }` for the
alias branch, whose `port` field holds the *entire wildcard entry object*, not
a number. -/
inductive SslEntry where
  | owned (server : Nat) (wsServer : Nat) (port : Nat)
  | aliasTo (entry : SslEntry)
deriving DecidableEq, Repr

/-- A JS value read from an entry's `port` field: either a number or an
object (the aliased wildcard entry). -/
inductive PortVal where
  | num (n : Nat)
  | obj (e : SslEntry)
deriving DecidableEq, Repr

/-- Reading `entry.port` in JS. -/
def SslEntry.portVal : SslEntry → PortVal
  | .owned _ _ p => .num p
  | .aliasTo e => .obj e

/-- Reading `entry.server` in JS: alias entries have no `server` field. -/
def SslEntry.serverId : SslEntry → Option Nat
  | .owned s _ _ => some s
  | .aliasTo _ => none

/-- Observable outcome of one `acquire`-style pass over the pool. -/
inductive PoolEvent where
  | created (hostname : String) (port : Nat)
  | aliased (hostname : String)
  | reused (hostname : String)
deriving DecidableEq, Repr

/-- Result of one serialized CONNECT's pool interaction. `connectPort` is the
value passed to `makeConnection` (hence to `net.connect` as the `port`
option). -/
structure AcquireResult where
  pool : List (String × SslEntry)
  events : List PoolEvent
  ctr : Nat
  connectPort : PortVal
deriving Repr

/-- The pool interaction of one CONNECT in the TLS branch of
`_onHttpServerConnectData`, lines 153-210.  The per-wildcard single-slot
semaphore serializes the section from `sem.take` to the `process.nextTick`
release, and in every branch the pool entry is installed before the slot is
released; since a task for hostname `h` only reads and writes the pool keys
`h` and `wildcardOf h` (both in `h`'s wildcard class), the concurrent
executions of one wildcard class are faithfully modelled by this sequential
step applied in semaphore-FIFO order, and classes are independent. The
pre-semaphore fast path and the post-take re-check of `sslServers[hostname]`
coincide under this serialization. `ctr` allocates fresh listener ids and the
OS-chosen ephemeral port. -/
def acquireStep (pool : List (String × SslEntry)) (hostname : String)
    (ctr : Nat) : AcquireResult :=
  match assocFind pool hostname with
  | some e =>
    { pool := pool, events := [.reused hostname], ctr := ctr,
      connectPort := e.portVal }
  | none =>
    let wildcardHost := wildcardOf hostname
    match assocFind pool wildcardHost with
    | some we =>
      -- source: `this.sslServers[hostname] = { port: this.sslServers[wildcardHost] }`
      { pool := (hostname, SslEntry.aliasTo we) :: pool,
        events := [.aliased hostname], ctr := ctr,
        connectPort := (SslEntry.aliasTo we).portVal }
    | none =>
      -- source: create an HTTPS listener, then on bind
      -- `this.sslServers[hostname] = { server, wsServer, port }`
      { pool := (hostname, SslEntry.owned ctr ctr ctr) :: pool,
        events := [.created hostname ctr], ctr := ctr + 1,
        connectPort := .num ctr }

/-- Serialized processing of a FIFO list of CONNECT hostnames against the
pool (the order in which the per-wildcard semaphore admits them). -/
def processRequests (pool : List (String × SslEntry)) (reqs : List String)
    (ctr : Nat) : AcquireResult :=
  match reqs with
  | [] => { pool := pool, events := [], ctr := ctr, connectPort := .num 0 }
  | h :: rest =>
    let r := acquireStep pool h ctr
    let rec' := processRequests r.pool rest r.ctr
    { pool := rec'.pool, events := r.events ++ rec'.events, ctr := rec'.ctr,
      connectPort := rec'.connectPort }

/-- Whether an event records the creation of a listener for `h`. -/
def isCreatedFor (h : String) (e : PoolEvent) : Bool :=
  match e with
  | .created h' _ => h' == h
  | _ => false

/-- Number of listeners created for hostname `h` in an event trace. -/
def countCreated (h : String) (evs : List PoolEvent) : Nat :=
  (evs.filter (isCreatedFor h)).length

/-- Whether an event records the creation of any listener. -/
def isCreated (e : PoolEvent) : Bool :=
  match e with
  | .created _ _ => true
  | _ => false

/-- Total number of listeners created in an event trace. -/
def totalCreated (evs : List PoolEvent) : Nat :=
  (evs.filter isCreated).length

/-! ## CONNECT registry and tunnel splicing

`makeConnection` (lines 106-139) opens a loopback TCP connection `conn` to the
chosen inner port and, in the connect callback, registers the originating
CONNECT request under `conn.localPort + ':' + conn.remotePort`, pipes the two
sockets together, re-emits the preview bytes, and removes the registry entry
when `conn` ends. `_onHttpServerRequest` (line 223) looks the entry up under
`req.socket.remotePort + ':' + req.socket.localPort`. -/

/-- A TCP socket endpoint, identified by its local and remote ports. -/
structure ConnSocket where
  localPort : Nat
  remotePort : Nat
deriving DecidableEq, Repr

/-- The registry key written by `makeConnection`:
`conn.localPort + ':' + conn.remotePort`. -/
def connectKeyOf (c : ConnSocket) : String :=
  toString c.localPort ++ ":" ++ toString c.remotePort

/-- The accepted end of a loopback TCP connection: TCP gives the accepted
socket the connecting socket's ports swapped. This is the socket the inner
listener sees for requests carried by the tunnel. -/
def innerSocketOf (c : ConnSocket) : ConnSocket :=
  { localPort := c.remotePort, remotePort := c.localPort }

/-- The lookup key used by `_onHttpServerRequest`:
`req.socket.remotePort + ':' + req.socket.localPort`. -/
def requestLookupKey (s : ConnSocket) : String :=
  toString s.remotePort ++ ":" ++ toString s.localPort

/-- The CONNECT registry `this.connectRequests`: key to CONNECT request id. -/
abbrev ConnectRegistry := List (String × Nat)

/-- Registering the tunnel: `this.connectRequests[connectKey] = req`. -/
def registerTunnel (reg : ConnectRegistry) (c : ConnSocket) (req : Nat) :
    ConnectRegistry :=
  (connectKeyOf c, req) :: reg

/-- Tunnel teardown: `delete this.connectRequests[connectKey]` in `conn`'s
`end` handler. -/
def unregisterTunnel (reg : ConnectRegistry) (c : ConnSocket) :
    ConnectRegistry :=
  List.filter (fun kv => !(kv.1 == connectKeyOf c)) reg

/-- The steps `makeConnection` performs, in source order, once `conn` is
connected (lines 114-127). -/
inductive TunnelEvent where
  | finishHandlerInstalled
  | registryInsert (key : String)
  | pipeClientToConn
  | pipeConnToClient
  | emitPreviewData
  | endHandlerInstalled
  | resumeClient
deriving DecidableEq, Repr

/-- The connect-callback body of `makeConnection`, as an ordered event list. -/
def tunnelEstablishEvents (c : ConnSocket) : List TunnelEvent :=
  [ .finishHandlerInstalled,
    .registryInsert (connectKeyOf c),
    .pipeClientToConn,
    .pipeConnToClient,
    .emitPreviewData,
    .endHandlerInstalled,
    .resumeClient ]

/-! ## First-byte dispatch -/

/-- The TLS heuristic of `_onHttpServerConnectData` (line 152):
`head[0] == 0x16 || head[0] == 0x80 || head[0] == 0x00`. -/
def firstByteIsTLS (b : Nat) : Bool :=
  b == 0x16 || b == 0x80 || b == 0x00

/-- `req.url.split(':', 2)[0]` for a CONNECT target of form
`hostname:port`. -/
def hostnameOfConnectUrl (u : String) : String :=
  (u.splitOn ":").headD ""

/-- Where a CONNECT tunnel is routed, as decided by
`_onHttpServerConnectData`. -/
inductive ConnectRoute where
  | sslPool (hostname : String)
  | plainSplice (port : Nat)
deriving DecidableEq, Repr

/-- The dispatch decision of `_onHttpServerConnectData` (lines 152-213): TLS
first bytes go to the per-hostname SSL pool path, everything else is spliced
to the plain inner HTTP listener's port. -/
def onHttpServerConnectData (firstByte : Nat) (reqUrl : String)
    (httpServerPort : Nat) : ConnectRoute :=
  if firstByteIsTLS firstByte then .sslPool (hostnameOfConnectUrl reqUrl)
  else .plainSplice httpServerPort

/-! ## Shutdown (`close`, lines 75-92) -/

/-- The listener-holding fields of a `Vanessa` instance. `listen` sets
`httpServer` and `sslServers`; `httpsServer`/`wssServer` are never assigned
anywhere in the class but `close` tests them, so they are carried as fields.
`delete this.x` sets a field to `none`; per-key `delete this.sslServers[k]`
empties the map but leaves the object in place. -/
structure VanessaServers where
  httpServer : Option Nat
  httpsServer : Option Nat
  wssServer : Option Nat
  sslServers : Option (List (String × SslEntry))
deriving Repr, DecidableEq

/-- The `close` method, lines 75-92. It begins with `this.httpServer.close()`,
which throws a `TypeError` when `httpServer` has been deleted; on success it
returns the new field state together with the ids of every listener it closed,
in order. Alias pool entries have no `server` field and are skipped by the
`if (server)` guard. -/
def VanessaServers.close (s : VanessaServers) :
    Except String (VanessaServers × List Nat) :=
  match s.httpServer with
  | none => .error "TypeError: this.httpServer is undefined"
  | some httpId =>
    let s1 : VanessaServers := { s with httpServer := none }
    let step2 : VanessaServers × List Nat :=
      match s1.httpsServer with
      | some httpsId =>
        ({ s1 with httpsServer := none, wssServer := none, sslServers := none },
          [httpsId])
      | none => (s1, [])
    let s2 := step2.1
    let step3 : VanessaServers × List Nat :=
      match s2.sslServers with
      | some pool =>
        ({ s2 with sslServers := some [] },
          pool.filterMap (fun kv => kv.2.serverId))
      | none => (s2, [])
    .ok (step3.1, httpId :: step2.2 ++ step3.2)

/-! ## Upstream agent selection (`serverProxyMiddleware`) -/

/-- `ctx.proxy`: the upstream proxy configuration. -/
structure UpstreamConfig where
  pac : Option String
  socks : Option String
  http : Option String
  https : Option String
deriving DecidableEq, Repr

/-- The connection factory chosen by `serverProxyMiddleware`. The PAC agent
carries the hostname its `callback` wrapper injects as SNI. -/
inductive Agent where
  | pacAgent (address : String) (sniHostname : String)
  | socksAgent (address : String)
  | httpsProxyAgent (address : String)
  | httpProxyAgent (address : String)
  | directHttpsAgent
  | directHttpAgent
  | undefinedAgent
deriving DecidableEq, Repr

/-- The `{ type, address }` record written to `ctx.summary.proxy`. -/
structure SummaryProxy where
  type : String
  address : String
deriving DecidableEq, Repr

/-- `serverProxyMiddleware` (src/middleware/server-side/proxy.js, lines 9-51):
chooses the agent with priority PAC, then SOCKS, then the protocol-matched
chained upstream, then a direct agent, recording `ctx.summary.proxy` exactly
when a chained upstream is used. Field guards are JS-truthiness tests. -/
def selectAgent (protocol : String) (hostname : String)
    (cfg : UpstreamConfig) : Agent × Option SummaryProxy :=
  match jsGetTruthy cfg.pac with
  | some pacUrl => (.pacAgent pacUrl hostname, some ⟨"PAC", pacUrl⟩)
  | none =>
    match jsGetTruthy cfg.socks with
    | some socksUrl => (.socksAgent socksUrl, some ⟨"SOCKS", socksUrl⟩)
    | none =>
      if protocol = "https" then
        match jsGetTruthy cfg.https with
        | some u => (.httpsProxyAgent u, some ⟨"HTTPS", u⟩)
        | none => (.directHttpsAgent, none)
      else if protocol = "http" then
        match jsGetTruthy cfg.http with
        | some u => (.httpProxyAgent u, some ⟨"HTTP", u⟩)
        | none => (.directHttpAgent, none)
      else (.undefinedAgent, none)

/-- The options object handed to the PAC agent's underlying `tls.connect`. -/
structure PACConnectOptions where
  servername : Option String
  rest : List (String × String)
deriving DecidableEq, Repr

/-- The options transformation of the wrapped `agent.callback`
(`Object.assign(opts || {}, { servername: ctx.hostname })`, lines 21-25):
default a missing options object to `{}`, then overwrite `servername` with
`ctx.hostname`, keeping all other keys. -/
def pacWrappedOptions (hostname : String) (opts : Option PACConnectOptions) :
    PACConnectOptions :=
  let base := opts.getD { servername := none, rest := [] }
  { base with servername := some hostname }

/-! ## WebSocket close propagation (`_onWebSocketClose`, lines 304-319) -/

/-- `ws` readyState constants. -/
inductive ReadyState where
  | CONNECTING
  | OPEN
  | CLOSING
  | CLOSED
deriving DecidableEq, Repr

/-- The WebSocket tunnel context fields read and written by
`_onWebSocketClose`: the two recorded-close flags and the two endpoints'
ready states (`clientToProxyWebSocket` and `proxyToServerWebSocket`). -/
structure WSTunnelCtx where
  closedByServer : Bool
  closedByClient : Bool
  clientToProxyState : ReadyState
  proxyToServerState : ReadyState
deriving DecidableEq, Repr

/-- A `close(code, message)` call issued on one of the two endpoints. -/
inductive WSCloseCmd where
  | closeProxyToServer (code : Nat) (message : String)
  | closeClientToProxy (code : Nat) (message : String)
deriving DecidableEq, Repr

/-- `_onWebSocketClose(ctx, closedByServer, code, message)`: if no close was
recorded yet, record which side closed, remap codes 1004-1006 to 1001, and
when the two ready states differ close the still-OPEN side if the other is
CLOSED. Returns the updated context and the close call issued, if any. -/
def onWebSocketClose (ctx : WSTunnelCtx) (closedByServer : Bool) (code : Nat)
    (message : String) : WSTunnelCtx × Option WSCloseCmd :=
  if !ctx.closedByServer && !ctx.closedByClient then
    let ctx' := { ctx with closedByServer := closedByServer,
                           closedByClient := !closedByServer }
    let code := if 1004 ≤ code ∧ code ≤ 1006 then 1001 else code
    if ctx.clientToProxyState ≠ ctx.proxyToServerState then
      if ctx.clientToProxyState = .CLOSED ∧ ctx.proxyToServerState = .OPEN then
        (ctx', some (.closeProxyToServer code message))
      else if ctx.proxyToServerState = .CLOSED ∧ ctx.clientToProxyState = .OPEN then
        (ctx', some (.closeClientToProxy code message))
      else (ctx', none)
    else (ctx', none)
  else (ctx, none)

/-! ## System-proxy resolution (`getSystemProxy`) -/

/-- The snapshot parsed from `scutil --proxy` output: each field is present
iff the corresponding key appeared in the OS output. -/
structure MacProxySnapshot where
  HTTPProxy : Option String
  HTTPPort : Option String
  HTTPSProxy : Option String
  HTTPSPort : Option String
  SOCKSProxy : Option String
  SOCKSPort : Option String
  ProxyAutoConfigURLString : Option String
deriving DecidableEq, Repr

/-- The `{http, https, socks, pac}` record returned by `getSystemProxy`. -/
structure SystemProxyResult where
  http : Option String
  https : Option String
  socks : Option String
  pac : Option String
deriving DecidableEq, Repr

/-- `process.env` as an exact-case key/value map (POSIX semantics: variable
names are case-sensitive). -/
abbrev EnvMap := List (String × String)

/-- Exact-case environment variable read. -/
def envGet (env : EnvMap) (key : String) : Option String :=
  assocFind env key

/-- `getSystemProxy` (src/middleware/client-side/proxy.js, lines 3-43), given
the parsed OS snapshot and the environment. Each field: if the OS proxy host
is truthy, format `scheme://host:port` (an absent port concatenates as
`"undefined"`); otherwise fall back to `env.UPPER || env.lower`. The PAC URL
is copied verbatim when truthy, else the field is absent. -/
def getSystemProxy (os : MacProxySnapshot) (env : EnvMap) :
    SystemProxyResult :=
  { http :=
      match jsGetTruthy os.HTTPProxy with
      | some hp => some ("http://" ++ hp ++ ":" ++ undefStr os.HTTPPort)
      | none => jsOr (envGet env "HTTP_PROXY") (envGet env "http_proxy"),
    https :=
      match jsGetTruthy os.HTTPSProxy with
      | some hp => some ("https://" ++ hp ++ ":" ++ undefStr os.HTTPSPort)
      | none => jsOr (envGet env "HTTPS_PROXY") (envGet env "https_proxy"),
    socks :=
      match jsGetTruthy os.SOCKSProxy with
      | some sp => some ("socks://" ++ sp ++ ":" ++ undefStr os.SOCKSPort)
      | none => jsOr (envGet env "ALL_PROXY") (envGet env "all_proxy"),
    pac := jsGetTruthy os.ProxyAutoConfigURLString }

/-- The OS side of one resolver field as the spec words it: when an OS-level
setting for the scheme exists, the field is `scheme://host:port`. -/
def specOsField (scheme : String) (host port : Option String) :
    Option String :=
  match jsGetTruthy host with
  | some h => some (scheme ++ "://" ++ h ++ ":" ++ undefStr port)
  | none => none

/-- The environment fallback of one resolver field, per the amended spec
wording: the exact-uppercase variable, then the exact-lowercase variable. -/
def specEnvFallback (env : EnvMap) (upper lower : String) : Option String :=
  jsOr (envGet env upper) (envGet env lower)

/-- The System-Proxy Resolver as the (amended) spec words it: per field,
OS-level configuration takes precedence over the environment fallback, and a
truthy PAC URL from the OS snapshot is carried verbatim. -/
def specSystemProxyResolver (os : MacProxySnapshot) (env : EnvMap) :
    SystemProxyResult :=
  { http :=
      match specOsField "http" os.HTTPProxy os.HTTPPort with
      | some u => some u
      | none => specEnvFallback env "HTTP_PROXY" "http_proxy",
    https :=
      match specOsField "https" os.HTTPSProxy os.HTTPSPort with
      | some u => some u
      | none => specEnvFallback env "HTTPS_PROXY" "https_proxy",
    socks :=
      match specOsField "socks" os.SOCKSProxy os.SOCKSPort with
      | some u => some u
      | none => specEnvFallback env "ALL_PROXY" "all_proxy",
    pac := jsGetTruthy os.ProxyAutoConfigURLString }

/-! ## Concrete fixtures -/

/-- A concrete owned pool entry standing for the wildcard listener
`{ server, wsServer, port: 8443 }`. -/
def wildcardPoolEntry : SslEntry := .owned 1 2 8443

/-- Field state after `listen`: an outer HTTP listener and a pool holding one
owned entry and one alias entry. -/
def listenedServers : VanessaServers :=
  { httpServer := some 100, httpsServer := none, wssServer := none,
    sslServers := some
      [("a.example.com", .owned 5 6 4443),
       ("b.example.com", .aliasTo (.owned 5 6 4443))] }

/-- Field state after the first `close` of `listenedServers`. -/
def closedOnceServers : VanessaServers :=
  { httpServer := none, httpsServer := none, wssServer := none,
    sslServers := some [] }

/-- An OS snapshot with no proxy configured. -/
def emptyMacSnapshot : MacProxySnapshot :=
  { HTTPProxy := none, HTTPPort := none, HTTPSProxy := none,
    HTTPSPort := none, SOCKSProxy := none, SOCKSPort := none,
    ProxyAutoConfigURLString := none }

/-! ## Wildcard-computation lemmas -/

theorem afterFirstDot_of_no_dot {l : List Char} (h : '.' ∉ l) :
    afterFirstDot l = none := by
  induction l with
  | nil => rfl
  | cons c rest ih =>
    have hc : c ≠ '.' := fun e => h (e ▸ List.mem_cons_self c rest)
    simp only [afterFirstDot, if_neg hc]
    exact ih (fun m => h (List.mem_cons_of_mem _ m))

theorem wildcardChars_of_no_dot {l : List Char} (h : '.' ∉ l) :
    wildcardChars l = l := by
  cases l with
  | nil => rfl
  | cons c rest =>
    have hc : c ≠ '.' := fun e => h (e ▸ List.mem_cons_self c rest)
    have hr : '.' ∉ rest := fun m => h (List.mem_cons_of_mem _ m)
    simp only [wildcardChars, if_neg hc, afterFirstDot_of_no_dot hr]

theorem dot_mem_of_wildcardChars_ne {l : List Char}
    (h : wildcardChars l ≠ l) : '.' ∈ wildcardChars l := by
  induction l with
  | nil => exact absurd rfl h
  | cons c rest ih =>
    by_cases hc : c = '.'
    · subst hc
      simp only [wildcardChars, if_pos rfl]
      exact List.mem_cons_self _ _
    · cases had : afterFirstDot rest with
      | some suffix =>
        simp only [wildcardChars, if_neg hc, had]
        exact List.mem_cons_of_mem _ (List.mem_cons_self _ _)
      | none =>
        exact absurd (by simp only [wildcardChars, if_neg hc, had]) h

/-! ## Registry lemmas -/

theorem assocFind_filter_out {α : Type} (l : List (String × α)) (k : String) :
    assocFind (List.filter (fun kv => !(kv.1 == k)) l) k = none := by
  induction l with
  | nil => rfl
  | cons kv rest ih =>
    by_cases h : kv.1 = k
    · simpa [List.filter_cons, h] using ih
    · simp [List.filter_cons, h, assocFind, ih]

/-! ## Claim theorems -/

/-- Claim C1 (evaluation at the failing input): when `pool[hostname]` is
absent but `pool[wildcard]` exists after the semaphore is taken, the installed
alias entry's `port` field holds the entire wildcard pool-entry object, not
the number `pool[wildcard].port`, and that object (not the numeric port 8443)
is what `makeConnection` receives as the connect port. -/
theorem alias_entry_port_is_object :
    assocFind (acquireStep [("*.example.com", wildcardPoolEntry)]
        "a.example.com" 10).pool "a.example.com"
      = some (.aliasTo wildcardPoolEntry) ∧
    (acquireStep [("*.example.com", wildcardPoolEntry)]
        "a.example.com" 10).connectPort = .obj wildcardPoolEntry ∧
    (acquireStep [("*.example.com", wildcardPoolEntry)]
        "a.example.com" 10).connectPort ≠ .num 8443 := by
  decide

/-- Claim C3: the registry entry is inserted before the preview byte is
re-emitted toward the inner listener; the lookup key computed from the inner
listener's socket (`remotePort:localPort`) equals the insertion key computed
from the connecting side (`localPort:remotePort`); the inserted entry resolves
to the originating CONNECT request; and tearing the tunnel down removes the
entry. -/
theorem connect_registry_consistency (reg : ConnectRegistry) (c : ConnSocket)
    (req : Nat) :
    (∃ pre mid post, tunnelEstablishEvents c =
        pre ++ TunnelEvent.registryInsert (connectKeyOf c)
          :: (mid ++ TunnelEvent.emitPreviewData :: post)) ∧
    requestLookupKey (innerSocketOf c) = connectKeyOf c ∧
    assocFind (registerTunnel reg c req) (requestLookupKey (innerSocketOf c))
      = some req ∧
    assocFind (unregisterTunnel (registerTunnel reg c req) c)
      (connectKeyOf c) = none := by
  refine ⟨⟨[.finishHandlerInstalled], [.pipeClientToConn, .pipeConnToClient],
    [.endHandlerInstalled, .resumeClient], rfl⟩, rfl, ?_, ?_⟩
  · simp [registerTunnel, assocFind, requestLookupKey, innerSocketOf,
      connectKeyOf]
  · exact assocFind_filter_out _ _

/-- Claim C4 (evaluation at the failing input): the first `close` closes the
outer listener and each owned pool listener exactly once (the alias entry is
skipped), but the second `close` throws, because the first deleted
`this.httpServer` and `close` begins with `this.httpServer.close()`. -/
theorem double_close_throws :
    VanessaServers.close listenedServers
      = .ok (closedOnceServers, [100, 5]) ∧
    VanessaServers.close closedOnceServers
      = .error "TypeError: this.httpServer is undefined" := by
  exact ⟨rfl, rfl⟩

/-- Claim C6: every invocation of the wrapped PAC connection callback passes
TLS options whose `servername` is `ctx.hostname` — when the original options
omit a servername, when they are absent entirely, and overriding any
servername the PAC layer supplied — while every other option key is kept. -/
theorem pac_wrapper_forces_sni (hostname : String)
    (opts : Option PACConnectOptions) :
    (pacWrappedOptions hostname opts).servername = some hostname ∧
    (pacWrappedOptions hostname opts).rest
      = (opts.getD { servername := none, rest := [] }).rest := by
  cases opts <;> simp [pacWrappedOptions]

/-- Claim C7: a CONNECT tunnel is routed to the per-hostname SSL pool exactly
when its first preview byte is 0x16, 0x80, or 0x00, and to the plain inner
HTTP listener's port for every other first byte. -/
theorem first_byte_dispatch (b : Nat) (u : String) (p : Nat) :
    (firstByteIsTLS b = true ↔ (b = 0x16 ∨ b = 0x80 ∨ b = 0)) ∧
    (onHttpServerConnectData b u p = .sslPool (hostnameOfConnectUrl u) ↔
      firstByteIsTLS b = true) ∧
    (onHttpServerConnectData b u p = .plainSplice p ↔
      firstByteIsTLS b = false) := by
  refine ⟨by simp [firstByteIsTLS, or_assoc], ?_, ?_⟩ <;>
    cases hb : firstByteIsTLS b <;>
      simp [onHttpServerConnectData, hb]

/-- Claim C10: a hostname containing no dot is its own wildcard key (so the
per-wildcard semaphore key coincides with the concrete hostname), and no other
hostname's wildcard key can equal it (so it never shares or lends its pool
listener). -/
theorem dotless_hostname_isolated (h : String) (hd : '.' ∉ h.data) :
    wildcardOf h = h ∧ ∀ h', wildcardOf h' = h → h' = h := by
  obtain ⟨l⟩ := h
  constructor
  · show String.mk (wildcardChars l) = String.mk l
    rw [wildcardChars_of_no_dot hd]
  · intro h' he
    obtain ⟨l'⟩ := h'
    have hchars : wildcardChars l' = l := congrArg String.data he
    by_cases hch : wildcardChars l' = l'
    · rw [hch] at hchars
      rw [hchars]
    · exact absurd (hchars ▸ dot_mem_of_wildcardChars_ne hch) hd

/-- Witness for C10 at the concrete hostname `localhost`. -/
theorem dotless_hostname_isolated_witness :
    wildcardOf "localhost" = "localhost" ∧
    ∀ h', wildcardOf h' = "localhost" → h' = "localhost" :=
  dotless_hostname_isolated "localhost" (by decide)

/-- Claim C5: the agent selection is strictly PAC over SOCKS over the
protocol-matched chained upstream over a direct agent, and `ctx.summary.proxy`
records the chosen type and address exactly when a chained upstream is
used. -/
theorem agent_selection_priority (proto host : String)
    (cfg : UpstreamConfig) :
    (∀ u, jsGetTruthy cfg.pac = some u →
      selectAgent proto host cfg = (.pacAgent u host, some ⟨"PAC", u⟩)) ∧
    (jsGetTruthy cfg.pac = none → ∀ u, jsGetTruthy cfg.socks = some u →
      selectAgent proto host cfg = (.socksAgent u, some ⟨"SOCKS", u⟩)) ∧
    (jsGetTruthy cfg.pac = none → jsGetTruthy cfg.socks = none →
      proto = "https" → ∀ u, jsGetTruthy cfg.https = some u →
      selectAgent proto host cfg = (.httpsProxyAgent u, some ⟨"HTTPS", u⟩)) ∧
    (jsGetTruthy cfg.pac = none → jsGetTruthy cfg.socks = none →
      proto = "https" → jsGetTruthy cfg.https = none →
      selectAgent proto host cfg = (.directHttpsAgent, none)) ∧
    (jsGetTruthy cfg.pac = none → jsGetTruthy cfg.socks = none →
      proto = "http" → ∀ u, jsGetTruthy cfg.http = some u →
      selectAgent proto host cfg = (.httpProxyAgent u, some ⟨"HTTP", u⟩)) ∧
    (jsGetTruthy cfg.pac = none → jsGetTruthy cfg.socks = none →
      proto = "http" → jsGetTruthy cfg.http = none →
      selectAgent proto host cfg = (.directHttpAgent, none)) := by
  refine ⟨?_, ?_, ?_, ?_, ?_, ?_⟩
  · intro u hu
    simp [selectAgent, hu]
  · intro hp u hu
    simp [selectAgent, hp, hu]
  · intro hp hs hproto u hu
    subst hproto
    simp [selectAgent, hp, hs, hu]
  · intro hp hs hproto hu
    subst hproto
    simp [selectAgent, hp, hs, hu]
  · intro hp hs hproto u hu
    subst hproto
    simp [selectAgent, hp, hs, hu]
  · intro hp hs hproto hu
    subst hproto
    simp [selectAgent, hp, hs, hu]

/-- Witness for C5 at a config with all four upstream fields set: PAC wins. -/
theorem agent_selection_priority_witness :
    selectAgent "https" "example.com"
      { pac := some "http://wpad/proxy.pac", socks := some "socks://s:1080",
        http := some "http://h:8080", https := some "https://hs:8080" }
      = (.pacAgent "http://wpad/proxy.pac" "example.com",
         some ⟨"PAC", "http://wpad/proxy.pac"⟩) :=
  (agent_selection_priority "https" "example.com"
      { pac := some "http://wpad/proxy.pac", socks := some "socks://s:1080",
        http := some "http://h:8080", https := some "https://hs:8080" }).1
    "http://wpad/proxy.pac" (by decide)

/-- Claim C8: when a close with a reserved code in [1004,1006] arrives from
one side, no close was recorded before, the closing side is CLOSED and the
opposite side OPEN, the opposite side is closed with code 1001 and exactly the
flag of the closing side is recorded; and once either flag is set, a later
close changes nothing and issues no close. -/
theorem ws_close_code_normalization (ctx : WSTunnelCtx) (fromServer : Bool)
    (c : Nat) (m : String)
    (h1 : ctx.closedByServer = false) (h2 : ctx.closedByClient = false)
    (h3 : 1004 ≤ c) (h4 : c ≤ 1006)
    (h5 : if fromServer then
            ctx.proxyToServerState = .CLOSED ∧ ctx.clientToProxyState = .OPEN
          else
            ctx.clientToProxyState = .CLOSED ∧ ctx.proxyToServerState = .OPEN) :
    (onWebSocketClose ctx fromServer c m).2
      = some (if fromServer then .closeClientToProxy 1001 m
              else .closeProxyToServer 1001 m) ∧
    (onWebSocketClose ctx fromServer c m).1.closedByServer = fromServer ∧
    (onWebSocketClose ctx fromServer c m).1.closedByClient = !fromServer ∧
    (∀ ctx2 f2 c2 m2,
      (ctx2.closedByServer = true ∨ ctx2.closedByClient = true) →
      onWebSocketClose ctx2 f2 c2 m2 = (ctx2, none)) := by
  have hrec : ∀ ctx2 f2 c2 m2,
      (ctx2.closedByServer = true ∨ ctx2.closedByClient = true) →
      onWebSocketClose ctx2 f2 c2 m2 = (ctx2, none) := by
    intro ctx2 f2 c2 m2 hset
    rcases hset with h | h <;> simp [onWebSocketClose, h]
  cases fromServer with
  | true =>
    obtain ⟨hps, hcp⟩ := h5
    refine ⟨?_, ?_, ?_, hrec⟩ <;>
      simp [onWebSocketClose, h1, h2, h3, h4, hps, hcp]
  | false =>
    obtain ⟨hcp, hps⟩ := h5
    refine ⟨?_, ?_, ?_, hrec⟩ <;>
      simp [onWebSocketClose, h1, h2, h3, h4, hps, hcp]

/-- Witness for C8: server side closes with code 1005 while the server socket
is CLOSED and the client socket OPEN; the client is closed with 1001 and
`closedByServer` alone is recorded. -/
theorem ws_close_code_normalization_witness :
    (onWebSocketClose
        { closedByServer := false, closedByClient := false,
          clientToProxyState := .OPEN, proxyToServerState := .CLOSED }
        true 1005 "going away").2
      = some (.closeClientToProxy 1001 "going away") ∧
    (onWebSocketClose
        { closedByServer := false, closedByClient := false,
          clientToProxyState := .OPEN, proxyToServerState := .CLOSED }
        true 1005 "going away").1.closedByServer = true :=
  have h := ws_close_code_normalization
    { closedByServer := false, closedByClient := false,
      clientToProxyState := .OPEN, proxyToServerState := .CLOSED }
    true 1005 "going away" rfl rfl (by decide) (by decide)
    (by exact ⟨rfl, rfl⟩)
  ⟨h.1, h.2.1⟩

/-- Counterexample to C9 as stated: with no OS-level proxy, an environment
holding only the mixed-case variable `Http_Proxy` is ignored, while the exact
uppercase `HTTP_PROXY` is honored — the fallback is not read
case-insensitively. -/
theorem env_fallback_not_case_insensitive :
    (getSystemProxy emptyMacSnapshot
        [("Http_Proxy", "http://up:3128")]).http = none ∧
    (getSystemProxy emptyMacSnapshot
        [("HTTP_PROXY", "http://up:3128")]).http = some "http://up:3128" := by
  exact ⟨rfl, rfl⟩

/-- Claim C9 (amended): the resolver returns `{http, https, socks, pac}`
fields that are URL strings or absent; per field an OS-level setting formatted
as `scheme://host:port` takes precedence over the environment fallback, the
fallback reads the exact-uppercase then the exact-lowercase variable
(`HTTP_PROXY`/`http_proxy`, `HTTPS_PROXY`/`https_proxy`,
`ALL_PROXY`/`all_proxy`), and a truthy PAC URL from the OS snapshot is carried
verbatim. -/
theorem system_proxy_refines_spec (os : MacProxySnapshot) (env : EnvMap) :
    getSystemProxy os env = specSystemProxyResolver os env := by
  cases h1 : jsGetTruthy os.HTTPProxy <;>
    cases h2 : jsGetTruthy os.HTTPSProxy <;>
      cases h3 : jsGetTruthy os.SOCKSProxy <;>
        simp [getSystemProxy, specSystemProxyResolver, specOsField,
          specEnvFallback, h1, h2, h3]

/-! ## Single-flight lemmas for the SSL pool -/

theorem countCreated_append (h : String) (a b : List PoolEvent) :
    countCreated h (a ++ b) = countCreated h a + countCreated h b := by
  simp [countCreated, List.filter_append]

theorem acquireStep_preserves_present (pool : List (String × SslEntry))
    (h' : String) (ctr : Nat) (h : String)
    (hp : assocFind pool h ≠ none) :
    assocFind (acquireStep pool h' ctr).pool h ≠ none ∧
    countCreated h (acquireStep pool h' ctr).events = 0 := by
  cases hf : assocFind pool h' with
  | some e =>
    simpa [acquireStep, hf, countCreated, isCreatedFor] using hp
  | none =>
    have hne : h' ≠ h := fun e => hp (e ▸ hf)
    cases hw : assocFind pool (wildcardOf h') with
    | some we =>
      simpa [acquireStep, hf, hw, countCreated, isCreatedFor, assocFind,
        hne] using hp
    | none =>
      simpa [acquireStep, hf, hw, countCreated, isCreatedFor, assocFind,
        hne] using hp

theorem processRequests_present_no_creates (reqs : List String)
    (pool : List (String × SslEntry)) (ctr : Nat) (h : String)
    (hp : assocFind pool h ≠ none) :
    countCreated h (processRequests pool reqs ctr).events = 0 := by
  induction reqs generalizing pool ctr with
  | nil => simp [processRequests, countCreated]
  | cons h' rest ih =>
    have hs := acquireStep_preserves_present pool h' ctr h hp
    simp only [processRequests, countCreated_append]
    rw [hs.2, ih _ _ hs.1]

theorem acquireStep_count_le_one (pool : List (String × SslEntry))
    (h' : String) (ctr : Nat) (h : String) :
    countCreated h (acquireStep pool h' ctr).events ≤ 1 := by
  cases hf : assocFind pool h' with
  | some e => simp [acquireStep, hf, countCreated, isCreatedFor]
  | none =>
    cases hw : assocFind pool (wildcardOf h') with
    | some we => simp [acquireStep, hf, hw, countCreated, isCreatedFor]
    | none =>
      simp only [acquireStep, hf, hw, countCreated]
      exact List.length_filter_le _ _

theorem acquireStep_created_installs (pool : List (String × SslEntry))
    (h' : String) (ctr : Nat) (h : String)
    (hc : countCreated h (acquireStep pool h' ctr).events ≠ 0) :
    assocFind (acquireStep pool h' ctr).pool h ≠ none := by
  cases hf : assocFind pool h' with
  | some e =>
    exact absurd (by simp [acquireStep, hf, countCreated, isCreatedFor]) hc
  | none =>
    cases hw : assocFind pool (wildcardOf h') with
    | some we =>
      exact absurd (by simp [acquireStep, hf, hw, countCreated, isCreatedFor])
        hc
    | none =>
      by_cases he : h' = h
      · subst he
        simp [acquireStep, hf, hw, assocFind]
      · exact absurd
          (by simp [acquireStep, hf, hw, countCreated, isCreatedFor, he]) hc

/-- Counterexample to C2 as stated: two serialized CONNECTs for the distinct
hostnames `a.example.com` and `b.example.com` — which share the wildcard class
`*.example.com` — against an empty pool create two ephemeral listeners, not
one, because the created entry is keyed by the concrete hostname and never by
the wildcard. -/
theorem shared_wildcard_creates_two_listeners :
    wildcardOf "a.example.com" = "*.example.com" ∧
    wildcardOf "b.example.com" = "*.example.com" ∧
    totalCreated
      (processRequests [] ["a.example.com", "b.example.com"] 0).events
      = 2 := by
  decide

/-- Claim C2 (amended): under the per-wildcard semaphore's serialization the
pool entry is installed before the slot is released, so for every serialized
request sequence at most one ephemeral listener is ever created per distinct
concrete hostname — a later waiter for the same hostname finds the entry —
while distinct hostnames of one wildcard class each create their own
listener when no literal wildcard entry is pooled. -/
theorem single_flight_per_hostname (pool : List (String × SslEntry))
    (reqs : List String) (ctr : Nat) (h : String) :
    countCreated h (processRequests pool reqs ctr).events ≤ 1 := by
  induction reqs generalizing pool ctr with
  | nil => simp [processRequests, countCreated]
  | cons h' rest ih =>
    simp only [processRequests, countCreated_append]
    by_cases hc : countCreated h (acquireStep pool h' ctr).events = 0
    · rw [hc]
      simpa using ih _ _
    · have h1 : countCreated h (acquireStep pool h' ctr).events ≤ 1 :=
        acquireStep_count_le_one pool h' ctr h
      have h0 : countCreated h
          (processRequests (acquireStep pool h' ctr).pool rest
            (acquireStep pool h' ctr).ctr).events = 0 :=
        processRequests_present_no_creates rest _ _ h
          (acquireStep_created_installs pool h' ctr h hc)
      omega

end Vanessa
